import Mathlib

/-!
Shallow embedding of the chat-session core of the repository (App component,
`src/unnamed/part_000`, with the data model of `src/types.ts`): session and
message records, the id minting scheme built on `Date.now()` millisecond
ticks, the mutation paths of `handleSendMessage` (session creation, user
append, placeholder creation, streamed-fragment folding, error injection),
the session-switching operations `loadChat` / `startNewChat`, and the
localStorage load/save round trip.

Machine clock ticks are modelled as `Nat` (the value of `Date.now()`), and
the JavaScript template-string rendering of a tick is modelled by `natRepr`,
a decimal printer.  Strings are treated as their character sequences.
-/

/-- Role of a chat message, from `src/types.ts` (`ChatRole`). -/
inductive ChatRole
  | user
  | model
deriving DecidableEq, Repr

/-- Attachment record, from `src/types.ts`.  All four fields are strings
(`url` is a preview reference, `data` the base64 payload). -/
structure Attachment where
  name : String
  type : String
  url : String
  data : String
deriving DecidableEq, Repr

/-- Chat message record, from `src/types.ts`.  The optional `attachments?`
field is an `Option`. -/
structure ChatMessage where
  id : String
  role : ChatRole
  text : String
  attachments : Option (List Attachment)
deriving DecidableEq, Repr

/-- Chat session record, from `src/types.ts`. -/
structure ChatSession where
  id : String
  title : String
  messages : List ChatMessage
  createdAt : String
deriving DecidableEq, Repr

/-- View mode of the App component (`type View = 'main' | 'chat' | 'history' | 'call'`). -/
inductive View
  | main
  | chat
  | history
  | call
deriving DecidableEq, Repr

/-- App component state relevant to the claims: `view`, `sessions`,
`currentSessionId`, and whether `chatRef.current` is non-null (`chatReady`).
`isLoading` and `error` banners are not needed by any claim. -/
structure AppState where
  view : View
  sessions : List ChatSession
  currentSessionId : Option String
  chatReady : Bool
deriving DecidableEq, Repr

/-! ### Decimal rendering of clock ticks

`natRepr n` models the JavaScript template-string conversion of the number
`Date.now()` to its decimal digit string. -/

/-- Decimal digit character for `d < 10` (the JavaScript decimal printer
emits exactly these characters). -/
def digitChar : Nat → Char
  | 0 => '0'
  | 1 => '1'
  | 2 => '2'
  | 3 => '3'
  | 4 => '4'
  | 5 => '5'
  | 6 => '6'
  | 7 => '7'
  | 8 => '8'
  | 9 => '9'
  | _ => '0'

/-- Fuelled most-significant-first decimal digit list of `n` (fuel-structural
so that it evaluates inside the kernel). -/
def natReprAux : Nat → Nat → List Char
  | 0, _ => []
  | _ + 1, 0 => []
  | fuel + 1, n + 1 => natReprAux fuel ((n + 1) / 10) ++ [digitChar ((n + 1) % 10)]

/-- Decimal string of a natural number, as JavaScript renders an integral
number inside a template string (`0` renders as `"0"`). -/
def natRepr (n : Nat) : String :=
  if n = 0 then "0" else ⟨natReprAux n n⟩

/-- Decoding step: shift in one decimal digit character. -/
def decodeStep (acc : Nat) (c : Char) : Nat := acc * 10 + (c.toNat - 48)

/-- Decode a decimal character list back to a number (left fold). -/
def decodeNatL (cs : List Char) : Nat := cs.foldl decodeStep 0

theorem digitChar_toNat {r : Nat} (h : r < 10) : (digitChar r).toNat = 48 + r := by
  interval_cases r <;> rfl

theorem foldl_decode_natReprAux :
    ∀ (fuel n acc : Nat), n ≤ fuel →
      (natReprAux fuel n).foldl decodeStep acc =
        acc * 10 ^ (natReprAux fuel n).length + n := by
  intro fuel
  induction fuel with
  | zero =>
    intro n acc h
    interval_cases n
    simp [natReprAux]
  | succ fuel ih =>
    intro n acc h
    match n with
    | 0 => simp [natReprAux]
    | n + 1 =>
      have hdiv : (n + 1) / 10 ≤ fuel := by omega
      have hmod : (n + 1) % 10 < 10 := by omega
      rw [natReprAux, List.foldl_append, ih _ _ hdiv]
      simp only [List.foldl_cons, List.foldl_nil, decodeStep, List.length_append,
        List.length_cons, List.length_nil, digitChar_toNat hmod]
      have h10 : (n + 1) / 10 * 10 + (n + 1) % 10 = n + 1 := by omega
      have hpow : 10 ^ ((natReprAux fuel ((n + 1) / 10)).length + (0 + 1)) =
          10 ^ (natReprAux fuel ((n + 1) / 10)).length * 10 := by
        rw [Nat.zero_add, pow_succ]
      rw [hpow]
      have : 48 + (n + 1) % 10 - 48 = (n + 1) % 10 := by omega
      rw [this]
      calc (acc * 10 ^ (natReprAux fuel ((n + 1) / 10)).length + (n + 1) / 10) * 10
            + (n + 1) % 10
          = acc * (10 ^ (natReprAux fuel ((n + 1) / 10)).length * 10)
            + ((n + 1) / 10 * 10 + (n + 1) % 10) := by ring
        _ = acc * (10 ^ (natReprAux fuel ((n + 1) / 10)).length * 10) + (n + 1) := by
            rw [h10]

theorem decodeNatL_natRepr (n : Nat) : decodeNatL (natRepr n).data = n := by
  by_cases h : n = 0
  · subst h; rfl
  · have hn : 1 ≤ n := Nat.one_le_iff_ne_zero.mpr h
    have : natRepr n = ⟨natReprAux n n⟩ := by simp [natRepr, h]
    rw [this]
    show (natReprAux n n).foldl decodeStep 0 = n
    rw [foldl_decode_natReprAux n n 0 (le_refl n)]
    simp

theorem natRepr_data_inj {a b : Nat} (h : (natRepr a).data = (natRepr b).data) : a = b := by
  have ha := decodeNatL_natRepr a
  have hb := decodeNatL_natRepr b
  rw [h] at ha
  omega

theorem digitChar_isDigit (r : Nat) : (digitChar r).isDigit = true := by
  unfold digitChar
  split <;> rfl

theorem natReprAux_digits :
    ∀ (fuel n : Nat) (c : Char), c ∈ natReprAux fuel n → c.isDigit = true := by
  intro fuel
  induction fuel with
  | zero => intro n c hc; simp [natReprAux] at hc
  | succ fuel ih =>
    intro n c hc
    match n with
    | 0 => simp [natReprAux] at hc
    | n + 1 =>
      rw [natReprAux] at hc
      rcases List.mem_append.mp hc with h | h
      · exact ih _ _ h
      · rw [List.mem_singleton] at h
        subst h
        exact digitChar_isDigit _

theorem natRepr_digits {n : Nat} {c : Char} (hc : c ∈ (natRepr n).data) :
    c.isDigit = true := by
  by_cases h : n = 0
  · subst h
    have h0 : natRepr 0 = "0" := rfl
    rw [h0] at hc
    have h1 : ("0" : String).data = ['0'] := rfl
    rw [h1, List.mem_singleton] at hc
    subst hc; rfl
  · simp only [natRepr, if_neg h] at hc
    exact natReprAux_digits n n c hc

theorem natRepr_no_dash (n : Nat) : '-' ∉ (natRepr n).data := by
  intro hmem
  have := natRepr_digits hmem
  simp [Char.isDigit] at this

/-! ### Id minting

The source mints ids with template strings over `Date.now()`:
`session-${Date.now()}` (line 89), `msg-${Date.now()}` (line 113),
`msg-${Date.now()}-model` (line 133), `err-${Date.now()}` (line 147). -/

/-- Session id minted at clock tick `t` (source line 89). -/
def mkSessionId (t : Nat) : String := "session-" ++ natRepr t

/-- User message id minted at clock tick `t` (source line 113). -/
def mkUserMsgId (t : Nat) : String := "msg-" ++ natRepr t

/-- Model placeholder message id minted at clock tick `t` (source line 133). -/
def mkModelMsgId (t : Nat) : String := "msg-" ++ natRepr t ++ "-model"

/-- Synthetic error message id minted at clock tick `t` (source line 147). -/
def mkErrMsgId (t : Nat) : String := "err-" ++ natRepr t

theorem mkSessionId_inj {a b : Nat} (h : mkSessionId a = mkSessionId b) : a = b := by
  apply natRepr_data_inj
  have hd := congrArg String.data h
  simp only [mkSessionId, String.data_append] at hd
  simpa using hd

theorem mkUserMsgId_inj {a b : Nat} (h : mkUserMsgId a = mkUserMsgId b) : a = b := by
  apply natRepr_data_inj
  have hd := congrArg String.data h
  simp only [mkUserMsgId, String.data_append] at hd
  simpa using hd

theorem mkModelMsgId_inj {a b : Nat} (h : mkModelMsgId a = mkModelMsgId b) : a = b := by
  apply natRepr_data_inj
  have hd := congrArg String.data h
  simp only [mkModelMsgId, String.data_append] at hd
  simp only [List.cons_append, List.nil_append, List.cons.injEq, true_and] at hd
  exact List.append_cancel_right hd

theorem mkErrMsgId_inj {a b : Nat} (h : mkErrMsgId a = mkErrMsgId b) : a = b := by
  apply natRepr_data_inj
  have hd := congrArg String.data h
  simp only [mkErrMsgId, String.data_append] at hd
  simpa using hd

theorem mkUserMsgId_ne_mkModelMsgId (a b : Nat) : mkUserMsgId a ≠ mkModelMsgId b := by
  intro h
  have hd := congrArg String.data h
  simp only [mkUserMsgId, mkModelMsgId, String.data_append] at hd
  simp only [List.cons_append, List.nil_append, List.cons.injEq, true_and] at hd
  have : '-' ∈ (natRepr a).data := by
    rw [hd]
    exact List.mem_append.mpr (Or.inr (by simp))
  exact natRepr_no_dash a this

theorem mkUserMsgId_ne_mkErrMsgId (a b : Nat) : mkUserMsgId a ≠ mkErrMsgId b := by
  intro h
  have hd := congrArg String.data h
  simp only [mkUserMsgId, mkErrMsgId, String.data_append] at hd
  simp at hd

theorem mkModelMsgId_ne_mkErrMsgId (a b : Nat) : mkModelMsgId a ≠ mkErrMsgId b := by
  intro h
  have hd := congrArg String.data h
  simp only [mkModelMsgId, mkErrMsgId, String.data_append] at hd
  simp at hd

/-! ### Operations of the App component -/

/-- Model of JavaScript `String.prototype.trim`: strip leading and trailing
whitespace (guard of `handleSendMessage`, source line 79). -/
def jsTrim (s : String) : String :=
  ⟨((s.data.dropWhile Char.isWhitespace).reverse.dropWhile Char.isWhitespace).reverse⟩

/-- Model of JavaScript `text.substring(0, n)`: the first `n` characters. -/
def takeChars (s : String) (n : Nat) : String := ⟨s.data.take n⟩

/-- Title of a freshly created session (source line 93):
`text.substring(0, 40) || "New Chat"` — the truncation, or `"New Chat"`
when the truncation is the empty string (the only falsy string). -/
def sessionTitle (text : String) : String :=
  if takeChars text 40 = "" then "New Chat" else takeChars text 40

/-- Banner and synthetic-message text used on a stream fault (source line 145). -/
def errorText : String := "An error occurred. Please try again."

/-- User message built at source lines 112–117 (attachments always present,
possibly empty). -/
def mkUserMessage (t : Nat) (text : String) (atts : List Attachment) : ChatMessage :=
  { id := mkUserMsgId t, role := .user, text := text, attachments := some atts }

/-- Model placeholder message built at source line 134 (no attachments field). -/
def placeholderMsg (t : Nat) : ChatMessage :=
  { id := mkModelMsgId t, role := .model, text := "", attachments := none }

/-- Synthetic error message built at source line 147. -/
def errMsg (t : Nat) : ChatMessage :=
  { id := mkErrMsgId t, role := .model, text := errorText, attachments := none }

/-- Session creation (source lines 88–97): mint `session-${Date.now()}`,
build a session with the derived title, empty messages, and the current
timestamp string, and prepend it to the list.  Returns the fresh id and the
new list. -/
def createSession (t : Nat) (createdAt : String) (text : String)
    (sessions : List ChatSession) : String × List ChatSession :=
  let sessionId := mkSessionId t
  (sessionId,
    { id := sessionId, title := sessionTitle text, messages := [],
      createdAt := createdAt } :: sessions)

/-- Append a message to the session(s) with the given id (source lines 119,
137, 148: `prev.map(s => s.id === sessionId ? { ...s, messages: [...s.messages, m] } : s)`). -/
def appendMessage (sessions : List ChatSession) (sessionId : String)
    (m : ChatMessage) : List ChatSession :=
  sessions.map fun s =>
    if s.id = sessionId then { s with messages := s.messages ++ [m] } else s

/-- Overwrite the text of the message(s) with the given id inside the
session(s) with the given id (source line 141). -/
def setMsgText (sessions : List ChatSession) (sessionId mid txt : String) :
    List ChatSession :=
  sessions.map fun s =>
    if s.id = sessionId then
      { s with messages := s.messages.map fun m =>
          if m.id = mid then { m with text := txt } else m }
    else s

/-- Streaming loop (source lines 139–142): for each delivered fragment,
extend the accumulated text and overwrite the placeholder's text with the
new accumulation. -/
def foldStream (sessions : List ChatSession) (sessionId mid acc : String) :
    List String → List ChatSession
  | [] => sessions
  | f :: fs => foldStream (setMsgText sessions sessionId mid (acc ++ f)) sessionId mid (acc ++ f) fs

/-- Session lookup as the component performs it (source lines 55, 168:
`sessions.find(s => s.id === sessionId)`). -/
def findSession (sessions : List ChatSession) (sessionId : String) : Option ChatSession :=
  sessions.find? fun s => s.id == sessionId

/-- Observed text of message `mid` in session `sessionId` (first match each). -/
def msgTextIn (sessions : List ChatSession) (sessionId mid : String) : Option String :=
  (findSession sessions sessionId).bind fun s =>
    (s.messages.find? fun m => m.id == mid).map ChatMessage.text

/-- Outcome of the awaited streaming send: normal completion after the given
fragments, a `StreamFault` raised after the given fragments were delivered,
or a fault raised before the placeholder was installed (source lines
130–148). -/
inductive StreamOutcome
  | ok (frags : List String)
  | fault (frags : List String)
  | preFault
deriving DecidableEq, Repr

/-- State transition of `handleSendMessage` (source lines 78–151), with the
clock ticks observed by the four `Date.now()` reads (`tS` session id, `tU`
user message id, `tM` placeholder id, `tE` error id), the created-at
timestamp string, the attachments produced by the external adapter for the
supplied files, and the stream outcome.  `isLoading`/`error` banners and
speech calls are external to the claims and not part of the state. -/
def handleSendMessage (st : AppState) (text : String) (files : List Attachment)
    (tS tU tM tE : Nat) (createdAt : String) (outcome : StreamOutcome) : AppState :=
  if (jsTrim text = "" ∧ files.length = 0) ∨ st.chatReady = false then st
  else
    let created := match st.currentSessionId with
      | some sid => (sid, st.sessions)
      | none => createSession tS createdAt text st.sessions
    let sessionId := created.1
    let sessions1 := created.2
    let sessions2 := appendMessage sessions1 sessionId (mkUserMessage tU text files)
    let view2 := if st.view = .main then View.chat else st.view
    let sessions3 := match outcome with
      | .ok frags =>
          foldStream (appendMessage sessions2 sessionId (placeholderMsg tM))
            sessionId (mkModelMsgId tM) "" frags
      | .fault frags =>
          appendMessage
            (foldStream (appendMessage sessions2 sessionId (placeholderMsg tM))
              sessionId (mkModelMsgId tM) "" frags)
            sessionId (errMsg tE)
      | .preFault => appendMessage sessions2 sessionId (errMsg tE)
    { view := view2, sessions := sessions3,
      currentSessionId := some sessionId, chatReady := st.chatReady }

/-- Switch to a stored session (source lines 161–166): set the current id,
null the backend handle (re-activation is asynchronous and out of model),
and show the chat view. -/
def loadChat (st : AppState) (sessionId : String) : AppState :=
  { st with currentSessionId := some sessionId, chatReady := false, view := .chat }

/-- Start a new chat (source lines 154–159): clear the current id, null the
backend handle, and show the main view. -/
def startNewChat (st : AppState) : AppState :=
  { st with currentSessionId := none, chatReady := false, view := .main }

/-! ### Trace model of the per-session mutation operations

Claim C2 quantifies over every session reachable by the program's mutation
operations.  Each mutation path of `handleSendMessage` acts on the target
session's message list; `MOp` records one such mutation together with the
`Date.now()` tick it observed. -/

/-- Kind of minted message id. -/
inductive MintKind
  | user
  | model
  | err
deriving DecidableEq, Repr

/-- Id minted for a kind at a tick (the three template strings of the source). -/
def mintId : MintKind → Nat → String
  | .user, t => mkUserMsgId t
  | .model, t => mkModelMsgId t
  | .err, t => mkErrMsgId t

/-- One mutation of a session's message list, as performed by
`handleSendMessage` on the session it targets. -/
inductive MOp
  | appendUser (t : Nat) (text : String) (atts : List Attachment)
  | appendPlaceholder (t : Nat)
  | foldFrag (t : Nat) (acc : String)
  | appendErr (t : Nat)
deriving DecidableEq, Repr

/-- Apply one mutation to a message list (the body of the corresponding
`setSessions` updater, restricted to the targeted session). -/
def applyMOp (msgs : List ChatMessage) : MOp → List ChatMessage
  | .appendUser t text atts => msgs ++ [mkUserMessage t text atts]
  | .appendPlaceholder t => msgs ++ [placeholderMsg t]
  | .foldFrag t acc =>
      msgs.map fun m => if m.id = mkModelMsgId t then { m with text := acc } else m
  | .appendErr t => msgs ++ [errMsg t]

/-- Run a sequence of mutations from an initial message list. -/
def runOps (msgs : List ChatMessage) (ops : List MOp) : List ChatMessage :=
  ops.foldl applyMOp msgs

/-- The (kind, tick) pairs of the ids minted by a mutation sequence. -/
def mints (ops : List MOp) : List (MintKind × Nat) :=
  ops.filterMap fun op => match op with
    | .appendUser t _ _ => some (.user, t)
    | .appendPlaceholder t => some (.model, t)
    | .foldFrag _ _ => none
    | .appendErr t => some (.err, t)

theorem mintId_inj : Function.Injective (fun p : MintKind × Nat => mintId p.1 p.2) := by
  rintro ⟨k1, t1⟩ ⟨k2, t2⟩ h
  simp only at h
  cases k1 <;> cases k2 <;> simp only [mintId] at h
  · exact congrArg _ (mkUserMsgId_inj h)
  · exact absurd h (mkUserMsgId_ne_mkModelMsgId t1 t2)
  · exact absurd h (mkUserMsgId_ne_mkErrMsgId t1 t2)
  · exact absurd h.symm (mkUserMsgId_ne_mkModelMsgId t2 t1)
  · exact congrArg _ (mkModelMsgId_inj h)
  · exact absurd h (mkModelMsgId_ne_mkErrMsgId t1 t2)
  · exact absurd h.symm (mkUserMsgId_ne_mkErrMsgId t2 t1)
  · exact absurd h.symm (mkModelMsgId_ne_mkErrMsgId t2 t1)
  · exact congrArg _ (mkErrMsgId_inj h)

theorem ids_runOps :
    ∀ (ops : List MOp) (msgs : List ChatMessage),
      (runOps msgs ops).map ChatMessage.id =
        msgs.map ChatMessage.id ++ (mints ops).map (fun p => mintId p.1 p.2) := by
  intro ops
  induction ops with
  | nil => intro msgs; simp [runOps, mints]
  | cons op ops ih =>
    intro msgs
    have hrun : runOps msgs (op :: ops) = runOps (applyMOp msgs op) ops := rfl
    rw [hrun, ih]
    cases op with
    | appendUser t text atts =>
        simp [applyMOp, mints, mkUserMessage, mintId]
    | appendPlaceholder t =>
        simp [applyMOp, mints, placeholderMsg, mintId]
    | appendErr t =>
        simp [applyMOp, mints, errMsg, mintId]
    | foldFrag t acc =>
        have hids : (applyMOp msgs (.foldFrag t acc)).map ChatMessage.id =
            msgs.map ChatMessage.id := by
          simp only [applyMOp, List.map_map]
          apply List.map_congr_left
          intro m _
          by_cases hm : m.id = mkModelMsgId t <;> simp [hm]
        rw [hids]
        simp [mints]

/-! ### Helper lemmas about the session-list operations -/

theorem findSession_map_update (sessions : List ChatSession) (sid : String)
    (f : ChatSession → ChatSession) (hf : ∀ s, (f s).id = s.id) :
    findSession (sessions.map fun s => if s.id = sid then f s else s) sid =
      (findSession sessions sid).map fun s => if s.id = sid then f s else s := by
  unfold findSession
  rw [List.find?_map]
  have hp : ((fun s : ChatSession => s.id == sid) ∘ fun s => if s.id = sid then f s else s) =
      fun s : ChatSession => s.id == sid := by
    funext s
    by_cases h : s.id = sid
    · simp only [Function.comp_apply, if_pos h, hf]
    · simp only [Function.comp_apply, if_neg h]
  rw [hp]

theorem findSession_some_id {sessions : List ChatSession} {sid : String}
    {s : ChatSession} (h : findSession sessions sid = some s) : s.id = sid := by
  have := List.find?_some h
  simpa using this

theorem findSession_appendMessage {sessions : List ChatSession} {sid : String}
    {s0 : ChatSession} (m : ChatMessage) (h : findSession sessions sid = some s0) :
    findSession (appendMessage sessions sid m) sid =
      some { s0 with messages := s0.messages ++ [m] } := by
  have hu := findSession_map_update sessions sid
    (fun s => { s with messages := s.messages ++ [m] }) (fun s => rfl)
  unfold appendMessage
  rw [hu, h]
  simp [findSession_some_id h]

theorem findSession_setMsgText {sessions : List ChatSession} {sid : String}
    {s0 : ChatSession} (mid txt : String) (h : findSession sessions sid = some s0) :
    findSession (setMsgText sessions sid mid txt) sid =
      some { s0 with messages := s0.messages.map fun m =>
        if m.id = mid then { m with text := txt } else m } := by
  have hu := findSession_map_update sessions sid
    (fun s => { s with messages := s.messages.map fun m =>
      if m.id = mid then { m with text := txt } else m }) (fun s => rfl)
  unfold setMsgText
  rw [hu, h]
  simp [findSession_some_id h]

theorem setMsgText_setMsgText (sessions : List ChatSession) (sid mid t1 t2 : String) :
    setMsgText (setMsgText sessions sid mid t1) sid mid t2 =
      setMsgText sessions sid mid t2 := by
  unfold setMsgText
  rw [List.map_map]
  apply List.map_congr_left
  intro s _
  simp only [Function.comp_apply]
  by_cases hs : s.id = sid
  · simp only [if_pos hs]
    congr 1
    rw [List.map_map]
    apply List.map_congr_left
    intro m _
    simp only [Function.comp_apply]
    by_cases hm : m.id = mid
    · simp only [if_pos hm]
    · simp only [if_neg hm]
  · simp only [if_neg hs]

theorem strJoin_cons (s : String) (l : List String) :
    String.join (s :: l) = s ++ String.join l := by
  have key : ∀ (l : List String) (a b : String),
      l.foldl (· ++ ·) (a ++ b) = a ++ l.foldl (· ++ ·) b := by
    intro l
    induction l with
    | nil => intro a b; rfl
    | cons x xs ih =>
      intro a b
      show xs.foldl (· ++ ·) (a ++ b ++ x) = a ++ xs.foldl (· ++ ·) (b ++ x)
      rw [String.append_assoc, ih]
  show (s :: l).foldl (· ++ ·) "" = s ++ l.foldl (· ++ ·) ""
  show l.foldl (· ++ ·) ("" ++ s) = s ++ l.foldl (· ++ ·) ""
  have h0 : ("" : String) ++ s = s ++ "" := by simp
  rw [h0, key]

theorem foldStream_eq_setMsgText :
    ∀ (frags : List String), frags ≠ [] →
      ∀ (sessions : List ChatSession) (sid mid acc : String),
        foldStream sessions sid mid acc frags =
          setMsgText sessions sid mid (acc ++ String.join frags) := by
  intro frags
  induction frags with
  | nil => intro h; exact absurd rfl h
  | cons f fs ih =>
    intro _ sessions sid mid acc
    by_cases hfs : fs = []
    · subst hfs
      show setMsgText sessions sid mid (acc ++ f) =
        setMsgText sessions sid mid (acc ++ String.join [f])
      have : String.join [f] = f := by
        rw [strJoin_cons]
        simp [String.join]
      rw [this]
    · show foldStream (setMsgText sessions sid mid (acc ++ f)) sid mid (acc ++ f) fs =
        setMsgText sessions sid mid (acc ++ String.join (f :: fs))
      rw [ih hfs, setMsgText_setMsgText, strJoin_cons, String.append_assoc]

theorem map_setText_of_fresh {mid : String} (txt : String) :
    ∀ {msgs : List ChatMessage}, mid ∉ msgs.map ChatMessage.id →
      (msgs.map fun m => if m.id = mid then { m with text := txt } else m) = msgs := by
  intro msgs
  induction msgs with
  | nil => intro _; rfl
  | cons m ms ih =>
    intro h
    simp only [List.map_cons, List.mem_cons, not_or] at h
    obtain ⟨h1, h2⟩ := h
    rw [List.map_cons, if_neg (fun he => h1 he.symm), ih h2]

/-! ### Persistence: serialization of the session list

The App persists the session list as `JSON.stringify(sessions)` under one
localStorage key and reloads it with `JSON.parse` (source lines 26–45).  The
textual layer of `JSON.stringify`/`JSON.parse` is the platform's lossless
tree round trip; the model therefore represents stored content as a JSON
value tree `JVal`, and models `stringify` as the encoding of the typed
records into a tree and `parse` as the decoding back.  `JSON.stringify`
omits an `undefined` optional field, so an absent `attachments?` field is
encoded by leaving the key out. -/

/-- JSON value tree (the fragment produced for this data model). -/
inductive JVal
  | str (v : String)
  | arr (xs : List JVal)
  | obj (fields : List (String × JVal))

/-- String content of a JSON value, when it is a string. -/
def jStr : JVal → Option String
  | .str v => some v
  | _ => none

/-- Decode each element of a JSON array, failing if any element fails. -/
def mapDecode (f : JVal → Option α) : List JVal → Option (List α)
  | [] => some []
  | x :: xs => match f x, mapDecode f xs with
    | some a, some as => some (a :: as)
    | _, _ => none

/-- Encoding of an attachment record. -/
def encodeAttachment (a : Attachment) : JVal :=
  .obj [("name", .str a.name), ("type", .str a.type),
        ("url", .str a.url), ("data", .str a.data)]

/-- Decoding of an attachment record. -/
def decodeAttachment : JVal → Option Attachment
  | .obj fs =>
    match (fs.lookup "name").bind jStr, (fs.lookup "type").bind jStr,
        (fs.lookup "url").bind jStr, (fs.lookup "data").bind jStr with
    | some name, some ty, some url, some dat =>
        some { name := name, type := ty, url := url, data := dat }
    | _, _, _, _ => none
  | _ => none

/-- Encoding of a message role. -/
def encodeRole : ChatRole → JVal
  | .user => .str "user"
  | .model => .str "model"

/-- Decoding of a message role. -/
def decodeRole : JVal → Option ChatRole
  | .str v => if v = "user" then some .user else if v = "model" then some .model else none
  | _ => none

/-- Encoding of a chat message (the optional `attachments?` key is omitted
when the field is `undefined`, as `JSON.stringify` does). -/
def encodeMessage (m : ChatMessage) : JVal :=
  .obj ([("id", .str m.id), ("role", encodeRole m.role), ("text", .str m.text)] ++
    (match m.attachments with
     | none => []
     | some atts => [("attachments", .arr (atts.map encodeAttachment))]))

/-- Decoding of the optional `attachments` key. -/
def decodeAtts : Option JVal → Option (Option (List Attachment))
  | none => some none
  | some (.arr xs) => (mapDecode decodeAttachment xs).map some
  | some _ => none

/-- Decoding of a chat message. -/
def decodeMessage : JVal → Option ChatMessage
  | .obj fs =>
    match (fs.lookup "id").bind jStr, (fs.lookup "role").bind decodeRole,
        (fs.lookup "text").bind jStr, decodeAtts (fs.lookup "attachments") with
    | some i, some r, some t, some a =>
        some { id := i, role := r, text := t, attachments := a }
    | _, _, _, _ => none
  | _ => none

/-- Encoding of a chat session. -/
def encodeSession (s : ChatSession) : JVal :=
  .obj [("id", .str s.id), ("title", .str s.title),
        ("messages", .arr (s.messages.map encodeMessage)),
        ("createdAt", .str s.createdAt)]

/-- Decoding of a chat session. -/
def decodeSession : JVal → Option ChatSession
  | .obj fs =>
    match (fs.lookup "id").bind jStr, (fs.lookup "title").bind jStr,
        (match fs.lookup "messages" with
         | some (.arr xs) => mapDecode decodeMessage xs
         | _ => none),
        (fs.lookup "createdAt").bind jStr with
    | some i, some ttl, some ms, some c =>
        some { id := i, title := ttl, messages := ms, createdAt := c }
    | _, _, _, _ => none
  | _ => none

/-- Encoding of the whole stored session list. -/
def encodeSessions (l : List ChatSession) : JVal := .arr (l.map encodeSession)

/-- Decoding of the whole stored session list. -/
def decodeSessions : JVal → Option (List ChatSession)
  | .arr xs => mapDecode decodeSession xs
  | _ => none

/-- Content of the durable storage key `chatSessions`: absent, textually
corrupt (so that `JSON.parse` throws), or a parsed JSON tree. -/
inductive StoredCell
  | absent
  | corrupt
  | value (j : JVal)

/-- Load effect (source lines 26–36): a missing key leaves the initial empty
list; a `JSON.parse` failure is caught and yields the empty list; a parsed
tree is assigned to the typed state (the TypeScript cast performs no runtime
validation, so a tree outside the image of the serializer has no typed
denotation and is marked `none`).  The function is total: no content makes
it raise past the effect. -/
def loadSessions : StoredCell → Option (List ChatSession)
  | .absent => some []
  | .corrupt => some []
  | .value j => decodeSessions j

/-- Save effect (source lines 39–45): serialize the full list into the one
storage key. -/
def saveSessions (l : List ChatSession) : StoredCell := .value (encodeSessions l)

theorem mapDecode_map {α : Type} {f : JVal → Option α} {g : α → JVal}
    (h : ∀ a, f (g a) = some a) : ∀ l : List α, mapDecode f (l.map g) = some l := by
  intro l
  induction l with
  | nil => rfl
  | cons a as ih =>
    rw [List.map_cons]
    show (match f (g a), mapDecode f (as.map g) with
      | some a, some as => some (a :: as)
      | _, _ => none) = some (a :: as)
    rw [h a, ih]

theorem decodeAttachment_encodeAttachment (a : Attachment) :
    decodeAttachment (encodeAttachment a) = some a := rfl

theorem decodeRole_encodeRole (r : ChatRole) : decodeRole (encodeRole r) = some r := by
  cases r <;> rfl

theorem decodeMessage_encodeMessage (m : ChatMessage) :
    decodeMessage (encodeMessage m) = some m := by
  obtain ⟨i, r, t, atts⟩ := m
  cases atts with
  | none => cases r <;> rfl
  | some l =>
    have hl : mapDecode decodeAttachment (l.map encodeAttachment) = some l :=
      mapDecode_map decodeAttachment_encodeAttachment l
    cases r <;>
      simp [decodeMessage, encodeMessage, encodeRole, decodeRole, decodeAtts,
        jStr, List.lookup, hl]

theorem decodeSession_encodeSession (s : ChatSession) :
    decodeSession (encodeSession s) = some s := by
  obtain ⟨i, ttl, msgs, c⟩ := s
  have hl : mapDecode decodeMessage (msgs.map encodeMessage) = some msgs :=
    mapDecode_map decodeMessage_encodeMessage msgs
  simp [decodeSession, encodeSession, jStr, List.lookup, hl]

theorem decodeSessions_encodeSessions (l : List ChatSession) :
    decodeSessions (encodeSessions l) = some l := by
  show mapDecode decodeSession (l.map encodeSession) = some l
  exact mapDecode_map decodeSession_encodeSession l

/-! ### Lemmas for the streaming claims -/

theorem find?_msgs_append_fresh {msgs : List ChatMessage} {mid : String}
    (h : mid ∉ msgs.map ChatMessage.id) {m : ChatMessage} (hm : m.id = mid) :
    ((msgs ++ [m]).find? fun x => x.id == mid) = some m := by
  have hnone : (msgs.find? fun x => x.id == mid) = none := by
    rw [List.find?_eq_none]
    intro x hx
    simp only [beq_iff_eq]
    intro he
    exact h (he ▸ List.mem_map_of_mem ChatMessage.id hx)
  rw [List.find?_append, hnone]
  simp [List.find?_cons, hm]

theorem msgTextIn_eq {sessions : List ChatSession} {sid : String} {s0 : ChatSession}
    (mid : String) (h : findSession sessions sid = some s0) :
    msgTextIn sessions sid mid =
      (s0.messages.find? fun m => m.id == mid).map ChatMessage.text := by
  unfold msgTextIn
  rw [h]
  rfl

theorem foldStream_getElem_ne :
    ∀ (frags : List String) (sessions : List ChatSession) (sid mid acc : String)
      (i : Nat) (s : ChatSession),
      (foldStream sessions sid mid acc frags)[i]? = some s → s.id ≠ sid →
        sessions[i]? = some s := by
  intro frags
  induction frags with
  | nil => intro _ _ _ _ _ _ h _; exact h
  | cons f fs ih =>
    intro sessions sid mid acc i s h hne
    have h2 := ih (setMsgText sessions sid mid (acc ++ f)) sid mid (acc ++ f) i s h hne
    unfold setMsgText at h2
    rw [List.getElem?_map] at h2
    cases hs : sessions[i]? with
    | none => rw [hs] at h2; simp at h2
    | some s' =>
      rw [hs] at h2
      simp only [Option.map_some', Option.some.injEq] at h2
      by_cases hid : s'.id = sid
      · rw [if_pos hid] at h2
        have : s.id = s'.id := by rw [← h2]
        exact absurd (this.trans hid) hne
      · rw [if_neg hid] at h2
        exact congrArg some h2

/-- C3: during one streaming send, the delivered fragments are folded in
delivery order into the placeholder id fixed at send start: after the k-th
fragment the placeholder's text equals the concatenation of fragments 1..k
(taking k = all fragments gives the final text). -/
theorem c3_fragments_fold_in_order (sessions : List ChatSession) (sid : String)
    (tm : Nat) (frags : List String) (k : Nat) (s0 : ChatSession)
    (h0 : findSession sessions sid = some s0)
    (hfresh : mkModelMsgId tm ∉ s0.messages.map ChatMessage.id)
    (hk : k ≤ frags.length) :
    msgTextIn
      (foldStream (appendMessage sessions sid (placeholderMsg tm)) sid
        (mkModelMsgId tm) "" (frags.take k))
      sid (mkModelMsgId tm) = some (String.join (frags.take k)) := by
  have h1 : findSession (appendMessage sessions sid (placeholderMsg tm)) sid =
      some { s0 with messages := s0.messages ++ [placeholderMsg tm] } :=
    findSession_appendMessage (placeholderMsg tm) h0
  by_cases hk0 : frags.take k = []
  · rw [hk0]
    show msgTextIn (appendMessage sessions sid (placeholderMsg tm)) sid
      (mkModelMsgId tm) = some (String.join [])
    rw [msgTextIn_eq (mkModelMsgId tm) h1]
    show (((s0.messages ++ [placeholderMsg tm]).find? fun m =>
      m.id == mkModelMsgId tm).map ChatMessage.text) = some (String.join [])
    rw [find?_msgs_append_fresh hfresh
      (show (placeholderMsg tm).id = mkModelMsgId tm from rfl)]
    rfl
  · rw [foldStream_eq_setMsgText (frags.take k) hk0]
    have h2 := findSession_setMsgText (mkModelMsgId tm)
      ("" ++ String.join (frags.take k)) h1
    rw [msgTextIn_eq (mkModelMsgId tm) h2]
    show ((((s0.messages ++ [placeholderMsg tm]).map fun m =>
        if m.id = mkModelMsgId tm
        then { m with text := "" ++ String.join (frags.take k) } else m).find?
          fun m => m.id == mkModelMsgId tm).map ChatMessage.text) =
      some (String.join (frags.take k))
    rw [List.map_append, map_setText_of_fresh _ hfresh]
    have hph : ([placeholderMsg tm].map fun m =>
        if m.id = mkModelMsgId tm
        then { m with text := "" ++ String.join (frags.take k) } else m) =
        [{ placeholderMsg tm with text := "" ++ String.join (frags.take k) }] := by
      simp [placeholderMsg]
    rw [hph]
    rw [find?_msgs_append_fresh hfresh
      (show ({ placeholderMsg tm with
        text := "" ++ String.join (frags.take k) }).id = mkModelMsgId tm from rfl)]
    simp

/-- Witness for C3 at the spec's example: fragments `["Hel", "lo"]` show
`"Hel"` after the first fold and `"Hello"` at the end. -/
theorem c3_fragments_fold_in_order_witness :
    msgTextIn
      (foldStream
        (appendMessage [⟨"session-1", "T", [], "c"⟩] "session-1" (placeholderMsg 2))
        "session-1" (mkModelMsgId 2) "" (["Hel", "lo"].take 1))
      "session-1" (mkModelMsgId 2) = some "Hel" ∧
    msgTextIn
      (foldStream
        (appendMessage [⟨"session-1", "T", [], "c"⟩] "session-1" (placeholderMsg 2))
        "session-1" (mkModelMsgId 2) "" (["Hel", "lo"].take 2))
      "session-1" (mkModelMsgId 2) = some "Hello" := by
  constructor
  · exact (c3_fragments_fold_in_order [⟨"session-1", "T", [], "c"⟩] "session-1" 2
      ["Hel", "lo"] 1 ⟨"session-1", "T", [], "c"⟩ (by decide) (by decide)
      (by decide)).trans (by decide)
  · exact (c3_fragments_fold_in_order [⟨"session-1", "T", [], "c"⟩] "session-1" 2
      ["Hel", "lo"] 2 ⟨"session-1", "T", [], "c"⟩ (by decide) (by decide)
      (by decide)).trans (by decide)

/-- Placeholder message with the accumulated stream text folded in (the
state of the message minted at line 134 after the updates of line 141). -/
def foldedMsg (t : Nat) (txt : String) : ChatMessage :=
  { id := mkModelMsgId t, role := .model, text := txt, attachments := none }

/-- C4: when the stream faults after `n ≥ 1` fragments, the placeholder keeps
the concatenated text of the delivered fragments (no rollback), exactly one
synthetic model-role error message with a new id is appended, and the
session's message count increases by exactly 2 (placeholder plus error)
relative to before the streaming send. -/
theorem c4_fault_preserves_partial (sessions : List ChatSession) (sid : String)
    (tm te : Nat) (frags : List String) (s0 : ChatSession)
    (h0 : findSession sessions sid = some s0)
    (hph : mkModelMsgId tm ∉ s0.messages.map ChatMessage.id)
    (herr : mkErrMsgId te ∉ s0.messages.map ChatMessage.id)
    (hn : 1 ≤ frags.length) :
    findSession
      (appendMessage
        (foldStream (appendMessage sessions sid (placeholderMsg tm)) sid
          (mkModelMsgId tm) "" frags)
        sid (errMsg te))
      sid =
      some { s0 with
             messages := s0.messages ++ [foldedMsg tm (String.join frags), errMsg te] }
    ∧ (s0.messages ++ [foldedMsg tm (String.join frags), errMsg te]).length =
        s0.messages.length + 2
    ∧ (errMsg te).id ∉ s0.messages.map ChatMessage.id ++ [(placeholderMsg tm).id] := by
  have hne : frags ≠ [] := by
    intro he; rw [he] at hn; simp at hn
  refine ⟨?_, by simp, ?_⟩
  · have h1 : findSession (appendMessage sessions sid (placeholderMsg tm)) sid =
        some { s0 with messages := s0.messages ++ [placeholderMsg tm] } :=
      findSession_appendMessage (placeholderMsg tm) h0
    rw [foldStream_eq_setMsgText frags hne]
    have h2 := findSession_setMsgText (mkModelMsgId tm) ("" ++ String.join frags) h1
    have hmsgs : ((s0.messages ++ [placeholderMsg tm]).map fun m =>
        if m.id = mkModelMsgId tm
        then { m with text := "" ++ String.join frags } else m) =
        s0.messages ++ [foldedMsg tm (String.join frags)] := by
      rw [List.map_append, map_setText_of_fresh _ hph]
      simp [placeholderMsg, foldedMsg]
    have h2' : findSession
        (setMsgText (appendMessage sessions sid (placeholderMsg tm)) sid
          (mkModelMsgId tm) ("" ++ String.join frags)) sid =
        some { s0 with messages := s0.messages ++ [foldedMsg tm (String.join frags)] } := by
      rw [h2]
      simp only [hmsgs]
    have h3 := findSession_appendMessage (errMsg te) h2'
    rw [h3]
    congr 1
    simp
  · intro hmem
    rcases List.mem_append.mp hmem with h | h
    · exact herr h
    · rw [List.mem_singleton] at h
      exact mkModelMsgId_ne_mkErrMsgId tm te h.symm

/-- Witness for C4: a fault after 2 delivered fragments keeps `"ab"` in the
placeholder and appends exactly one error message. -/
theorem c4_fault_preserves_partial_witness :
    findSession
      (appendMessage
        (foldStream
          (appendMessage [⟨"session-1", "T", [mkUserMessage 3 "hi" []], "c"⟩]
            "session-1" (placeholderMsg 4))
          "session-1" (mkModelMsgId 4) "" ["a", "b"])
        "session-1" (errMsg 5))
      "session-1" =
      some ⟨"session-1", "T",
        [mkUserMessage 3 "hi" [], foldedMsg 4 (String.join ["a", "b"]), errMsg 5], "c"⟩ := by
  have h := c4_fault_preserves_partial
    [⟨"session-1", "T", [mkUserMessage 3 "hi" []], "c"⟩] "session-1" 4 5 ["a", "b"]
    ⟨"session-1", "T", [mkUserMessage 3 "hi" []], "c"⟩
    (by decide) (by decide) (by decide) (by decide)
  exact h.1

/-- C5: switching the current session while a stream is in flight cannot
route fragments into another session.  `loadChat` and `startNewChat` do not
touch the session list at all, and the fold (which targets the session id
captured at send start) leaves every session with a different id exactly as
it was — in particular the newly selected session. -/
theorem c5_no_cross_session_fold (st : AppState) (target sid mid acc : String)
    (frags : List String) (i : Nat) (s : ChatSession) :
    ((loadChat st target).sessions = st.sessions) ∧
    ((startNewChat st).sessions = st.sessions) ∧
    ((foldStream (loadChat st target).sessions sid mid acc frags)[i]? = some s →
      s.id ≠ sid → st.sessions[i]? = some s) ∧
    ((foldStream (startNewChat st).sessions sid mid acc frags)[i]? = some s →
      s.id ≠ sid → st.sessions[i]? = some s) := by
  refine ⟨rfl, rfl, ?_, ?_⟩
  · intro h hne
    exact foldStream_getElem_ne frags (loadChat st target).sessions sid mid acc i s h hne
  · intro h hne
    exact foldStream_getElem_ne frags (startNewChat st).sessions sid mid acc i s h hne

/-- Witness for C5: with two sessions in the store, loading session B and
then folding a fragment targeted at session A leaves B exactly as it was. -/
theorem c5_no_cross_session_fold_witness :
    ({ view := .chat,
       sessions := [⟨"session-1", "A", [], "c1"⟩, ⟨"session-2", "B", [], "c2"⟩],
       currentSessionId := some "session-1", chatReady := true } : AppState).sessions[1]? =
      some ⟨"session-2", "B", [], "c2"⟩ := by
  have h := c5_no_cross_session_fold
    { view := .chat,
      sessions := [⟨"session-1", "A", [], "c1"⟩, ⟨"session-2", "B", [], "c2"⟩],
      currentSessionId := some "session-1", chatReady := true }
    "session-2" "session-1" (mkModelMsgId 9) "" ["frag"] 1
    ⟨"session-2", "B", [], "c2"⟩
  exact h.2.2.1 (by decide) (by decide)

/-! ### Lemmas for the title claim -/

theorem sessionTitle_eq (text : String) :
    sessionTitle text = if text = "" then "New Chat" else takeChars text 40 := by
  unfold sessionTitle
  by_cases ht : text = ""
  · subst ht
    rfl
  · rw [if_neg ht]
    have : takeChars text 40 ≠ "" := by
      obtain ⟨l⟩ := text
      cases l with
      | nil => exact absurd rfl ht
      | cons c cs =>
        intro he
        have := congrArg String.data he
        simp [takeChars] at this
    rw [if_neg this]

theorem titles_appendMessage (ss : List ChatSession) (sid : String) (m : ChatMessage) :
    (appendMessage ss sid m).map ChatSession.title = ss.map ChatSession.title := by
  unfold appendMessage
  rw [List.map_map]
  apply List.map_congr_left
  intro s _
  simp only [Function.comp_apply]
  by_cases hs : s.id = sid
  · rw [if_pos hs]
  · rw [if_neg hs]

theorem titles_setMsgText (ss : List ChatSession) (sid mid txt : String) :
    (setMsgText ss sid mid txt).map ChatSession.title = ss.map ChatSession.title := by
  unfold setMsgText
  rw [List.map_map]
  apply List.map_congr_left
  intro s _
  simp only [Function.comp_apply]
  by_cases hs : s.id = sid
  · rw [if_pos hs]
  · rw [if_neg hs]

theorem titles_foldStream :
    ∀ (frags : List String) (ss : List ChatSession) (sid mid acc : String),
      (foldStream ss sid mid acc frags).map ChatSession.title =
        ss.map ChatSession.title := by
  intro frags
  induction frags with
  | nil => intro ss _ _ _; rfl
  | cons f fs ih =>
    intro ss sid mid acc
    show (foldStream (setMsgText ss sid mid (acc ++ f)) sid mid (acc ++ f) fs).map
        ChatSession.title = ss.map ChatSession.title
    rw [ih, titles_setMsgText]

theorem appendMessage_head {ss : List ChatSession} {s2 : ChatSession} {sid : String}
    (h : ss.head? = some s2) (hid : s2.id = sid) (m : ChatMessage) :
    (appendMessage ss sid m).head? = some { s2 with messages := s2.messages ++ [m] } := by
  unfold appendMessage
  rw [List.head?_map, h]
  simp only [Option.map_some', if_pos hid]

theorem setMsgText_head {ss : List ChatSession} {s2 : ChatSession} {sid : String}
    (h : ss.head? = some s2) (hid : s2.id = sid) (mid txt : String) :
    (setMsgText ss sid mid txt).head? =
      some { s2 with messages := s2.messages.map fun m =>
        if m.id = mid then { m with text := txt } else m } := by
  unfold setMsgText
  rw [List.head?_map, h]
  simp only [Option.map_some', if_pos hid]

theorem foldStream_head_props :
    ∀ (frags : List String) (ss : List ChatSession) (s2 : ChatSession)
      (sid mid acc : String), ss.head? = some s2 → s2.id = sid →
      ∃ s3, (foldStream ss sid mid acc frags).head? = some s3 ∧ s3.id = sid ∧
        s3.title = s2.title ∧
        (∀ m, s2.messages.head? = some m → m.id ≠ mid →
          s3.messages.head? = some m) := by
  intro frags
  induction frags with
  | nil =>
    intro ss s2 sid mid acc h hid
    exact ⟨s2, h, hid, rfl, fun m hm _ => hm⟩
  | cons f fs ih =>
    intro ss s2 sid mid acc h hid
    have h1 := setMsgText_head h hid mid (acc ++ f)
    obtain ⟨s3, h3, hid3, ht3, hm3⟩ :=
      ih (setMsgText ss sid mid (acc ++ f))
        { s2 with messages := s2.messages.map fun m =>
            if m.id = mid then { m with text := acc ++ f } else m }
        sid mid (acc ++ f) h1 hid
    refine ⟨s3, h3, hid3, ht3, ?_⟩
    intro m hm hmne
    apply hm3
    · show (s2.messages.map fun x =>
        if x.id = mid then { x with text := acc ++ f } else x).head? = some m
      rw [List.head?_map, hm]
      simp only [Option.map_some', if_neg hmne]
    · exact hmne

/-- C6: a newly created session's title equals the first 40 characters of
the first user message's text, or `"New Chat"` when that text is empty, and
no later operation (further sends, fragment folds, error injection,
`loadChat`, `startNewChat`) ever changes an existing session's title. -/
theorem c6_title_rule :
    (∀ (st : AppState) (text : String) (files : List Attachment) (tS tU tM tE : Nat)
        (cA : String) (oc : StreamOutcome),
      st.currentSessionId = none →
      ¬ ((jsTrim text = "" ∧ files.length = 0) ∨ st.chatReady = false) →
      ((handleSendMessage st text files tS tU tM tE cA oc).sessions.head?).map
          ChatSession.title =
        some (if text = "" then "New Chat" else takeChars text 40) ∧
      (((handleSendMessage st text files tS tU tM tE cA oc).sessions.head?).bind
          (fun s => s.messages.head?)).map (fun m => (m.role, m.text)) =
        some (ChatRole.user, text) ∧
      (handleSendMessage st text files tS tU tM tE cA oc).sessions.map
          ChatSession.title =
        sessionTitle text :: st.sessions.map ChatSession.title) ∧
    (∀ (st : AppState) (text : String) (files : List Attachment) (tS tU tM tE : Nat)
        (cA : String) (oc : StreamOutcome) (sid : String),
      st.currentSessionId = some sid →
      (handleSendMessage st text files tS tU tM tE cA oc).sessions.map
          ChatSession.title = st.sessions.map ChatSession.title) ∧
    (∀ (st : AppState) (x : String),
      (loadChat st x).sessions.map ChatSession.title =
        st.sessions.map ChatSession.title) ∧
    (∀ st : AppState,
      (startNewChat st).sessions.map ChatSession.title =
        st.sessions.map ChatSession.title) := by
  refine ⟨?_, ?_, ?_, ?_⟩
  · intro st text files tS tU tM tE cA oc hcur hg
    cases oc with
    | ok frags =>
      have hsess : (handleSendMessage st text files tS tU tM tE cA (.ok frags)).sessions =
          foldStream
            (appendMessage
              (appendMessage (createSession tS cA text st.sessions).2 (mkSessionId tS)
                (mkUserMessage tU text files))
              (mkSessionId tS) (placeholderMsg tM))
            (mkSessionId tS) (mkModelMsgId tM) "" frags := by
        unfold handleSendMessage
        rw [if_neg hg, hcur]
        rfl
      have hnew : ((createSession tS cA text st.sessions).2).head? =
          some { id := mkSessionId tS, title := sessionTitle text, messages := [],
                 createdAt := cA } := rfl
      have hU := appendMessage_head hnew rfl (mkUserMessage tU text files)
      have hP := appendMessage_head hU rfl (placeholderMsg tM)
      obtain ⟨s3, h3, hid3, ht3, hm3⟩ :=
        foldStream_head_props frags _ _ (mkSessionId tS) (mkModelMsgId tM) "" hP rfl
      have hmu : s3.messages.head? = some (mkUserMessage tU text files) := by
        apply hm3
        · rfl
        · exact mkUserMsgId_ne_mkModelMsgId tU tM
      refine ⟨?_, ?_, ?_⟩
      · rw [hsess, h3]
        simp only [Option.map_some']
        rw [ht3]
        show some (sessionTitle text) =
          some (if text = "" then "New Chat" else takeChars text 40)
        rw [sessionTitle_eq]
      · rw [hsess, h3]
        show (s3.messages.head?).map (fun m => (m.role, m.text)) =
          some (ChatRole.user, text)
        rw [hmu]
        rfl
      · rw [hsess, titles_foldStream, titles_appendMessage, titles_appendMessage]
        rfl
    | fault frags =>
      have hsess : (handleSendMessage st text files tS tU tM tE cA (.fault frags)).sessions =
          appendMessage
            (foldStream
              (appendMessage
                (appendMessage (createSession tS cA text st.sessions).2 (mkSessionId tS)
                  (mkUserMessage tU text files))
                (mkSessionId tS) (placeholderMsg tM))
              (mkSessionId tS) (mkModelMsgId tM) "" frags)
            (mkSessionId tS) (errMsg tE) := by
        unfold handleSendMessage
        rw [if_neg hg, hcur]
        rfl
      have hnew : ((createSession tS cA text st.sessions).2).head? =
          some { id := mkSessionId tS, title := sessionTitle text, messages := [],
                 createdAt := cA } := rfl
      have hU := appendMessage_head hnew rfl (mkUserMessage tU text files)
      have hP := appendMessage_head hU rfl (placeholderMsg tM)
      obtain ⟨s3, h3, hid3, ht3, hm3⟩ :=
        foldStream_head_props frags _ _ (mkSessionId tS) (mkModelMsgId tM) "" hP rfl
      have hmu : s3.messages.head? = some (mkUserMessage tU text files) := by
        apply hm3
        · rfl
        · exact mkUserMsgId_ne_mkModelMsgId tU tM
      have hE := appendMessage_head h3 hid3 (errMsg tE)
      have hms2 : (s3.messages ++ [errMsg tE]).head? =
          some (mkUserMessage tU text files) := by
        cases hms : s3.messages with
        | nil => rw [hms] at hmu; exact absurd hmu (by simp)
        | cons a tl =>
          rw [hms] at hmu
          simp only [List.head?_cons, Option.some.injEq] at hmu
          rw [hmu]
          rfl
      refine ⟨?_, ?_, ?_⟩
      · rw [hsess, hE]
        simp only [Option.map_some']
        show some (s3.title) =
          some (if text = "" then "New Chat" else takeChars text 40)
        rw [ht3]
        show some (sessionTitle text) =
          some (if text = "" then "New Chat" else takeChars text 40)
        rw [sessionTitle_eq]
      · rw [hsess, hE]
        show ((s3.messages ++ [errMsg tE]).head?).map (fun m => (m.role, m.text)) =
          some (ChatRole.user, text)
        rw [hms2]
        rfl
      · rw [hsess, titles_appendMessage, titles_foldStream, titles_appendMessage,
          titles_appendMessage]
        rfl
    | preFault =>
      have hsess : (handleSendMessage st text files tS tU tM tE cA .preFault).sessions =
          appendMessage
            (appendMessage (createSession tS cA text st.sessions).2 (mkSessionId tS)
              (mkUserMessage tU text files))
            (mkSessionId tS) (errMsg tE) := by
        unfold handleSendMessage
        rw [if_neg hg, hcur]
        rfl
      have hnew : ((createSession tS cA text st.sessions).2).head? =
          some { id := mkSessionId tS, title := sessionTitle text, messages := [],
                 createdAt := cA } := rfl
      have hU := appendMessage_head hnew rfl (mkUserMessage tU text files)
      have hE := appendMessage_head hU rfl (errMsg tE)
      refine ⟨?_, ?_, ?_⟩
      · rw [hsess, hE]
        show some (sessionTitle text) =
          some (if text = "" then "New Chat" else takeChars text 40)
        rw [sessionTitle_eq]
      · rw [hsess, hE]
        rfl
      · rw [hsess, titles_appendMessage, titles_appendMessage]
        rfl
  · intro st text files tS tU tM tE cA oc sid hcur
    by_cases hgd : (jsTrim text = "" ∧ files.length = 0) ∨ st.chatReady = false
    · have hid : handleSendMessage st text files tS tU tM tE cA oc = st := by
        unfold handleSendMessage
        rw [if_pos hgd]
      rw [hid]
    · cases oc with
      | ok frags =>
        have hsess : (handleSendMessage st text files tS tU tM tE cA (.ok frags)).sessions =
            foldStream
              (appendMessage (appendMessage st.sessions sid (mkUserMessage tU text files))
                sid (placeholderMsg tM))
              sid (mkModelMsgId tM) "" frags := by
          unfold handleSendMessage
          rw [if_neg hgd, hcur]
        rw [hsess, titles_foldStream, titles_appendMessage, titles_appendMessage]
      | fault frags =>
        have hsess : (handleSendMessage st text files tS tU tM tE cA (.fault frags)).sessions =
            appendMessage
              (foldStream
                (appendMessage (appendMessage st.sessions sid (mkUserMessage tU text files))
                  sid (placeholderMsg tM))
                sid (mkModelMsgId tM) "" frags)
              sid (errMsg tE) := by
          unfold handleSendMessage
          rw [if_neg hgd, hcur]
        rw [hsess, titles_appendMessage, titles_foldStream, titles_appendMessage,
          titles_appendMessage]
      | preFault =>
        have hsess : (handleSendMessage st text files tS tU tM tE cA .preFault).sessions =
            appendMessage (appendMessage st.sessions sid (mkUserMessage tU text files))
              sid (errMsg tE) := by
          unfold handleSendMessage
          rw [if_neg hgd, hcur]
        rw [hsess, titles_appendMessage, titles_appendMessage]
  · intro st x
    rfl
  · intro st
    rfl

/-- Witness for C6: sending `"Hi"` as the first message creates a session
titled `"Hi"` whose first message is the user message. -/
theorem c6_title_rule_witness :
    ((handleSendMessage ⟨.main, [], none, true⟩ "Hi" [] 1 2 3 4 "c"
        (.ok ["Hello"])).sessions.head?).map ChatSession.title =
      some (if ("Hi" : String) = "" then "New Chat" else takeChars "Hi" 40) ∧
    (((handleSendMessage ⟨.main, [], none, true⟩ "Hi" [] 1 2 3 4 "c"
        (.ok ["Hello"])).sessions.head?).bind
        (fun s => s.messages.head?)).map (fun m => (m.role, m.text)) =
      some (ChatRole.user, "Hi") ∧
    (handleSendMessage ⟨.main, [], none, true⟩ "Hi" [] 1 2 3 4 "c"
        (.ok ["Hello"])).sessions.map ChatSession.title =
      sessionTitle "Hi" :: ([] : List ChatSession).map ChatSession.title :=
  c6_title_rule.1 ⟨.main, [], none, true⟩ "Hi" [] 1 2 3 4 "c" (.ok ["Hello"])
    rfl (by decide)

/-- C7: the load effect never raises past its caller: an absent key and
corrupt (unparsable) data both yield the empty session sequence, and a
stored serialization of any session list yields that list back. -/
theorem c7_load_recovers :
    loadSessions .absent = some [] ∧ loadSessions .corrupt = some [] ∧
    ∀ l : List ChatSession, loadSessions (.value (encodeSessions l)) = some l :=
  ⟨rfl, rfl, decodeSessions_encodeSessions⟩

/-- C8: saving any session list to durable storage and loading it back
returns a deep-equal session sequence (save/load round trip). -/
theorem c8_save_load_round_trip (l : List ChatSession) :
    loadSessions (saveSessions l) = some l :=
  decodeSessions_encodeSessions l

/-- C9: a send whose text trims to empty with no files, or issued while no
backend handle exists, leaves the entire state (session list, current
session id, view) unchanged. -/
theorem c9_guard_noop (st : AppState) (text : String) (files : List Attachment)
    (tS tU tM tE : Nat) (cA : String) (oc : StreamOutcome)
    (h : (jsTrim text = "" ∧ files.length = 0) ∨ st.chatReady = false) :
    handleSendMessage st text files tS tU tM tE cA oc = st := by
  unfold handleSendMessage
  rw [if_pos h]

/-- Witness for C9: sending a whitespace-only text with no files changes
nothing. -/
theorem c9_guard_noop_witness :
    handleSendMessage ⟨.main, [], none, true⟩ "  " [] 1 2 3 4 "c" (.ok ["x"]) =
      ⟨.main, [], none, true⟩ :=
  c9_guard_noop ⟨.main, [], none, true⟩ "  " [] 1 2 3 4 "c" (.ok ["x"])
    (Or.inl ⟨by decide, rfl⟩)

/-- C10: the three ids one `handleSendMessage` invocation can mint — the
user message id `msg-<t>`, the placeholder id `msg-<t>-model`, and the error
id `err-<t>` — are pairwise distinct even when all three `Date.now()` reads
yield the same millisecond tick. -/
theorem c10_send_ids_pairwise_distinct (t : Nat) :
    mkUserMsgId t ≠ mkModelMsgId t ∧ mkUserMsgId t ≠ mkErrMsgId t ∧
      mkModelMsgId t ≠ mkErrMsgId t :=
  ⟨mkUserMsgId_ne_mkModelMsgId t t, mkUserMsgId_ne_mkErrMsgId t t,
    mkModelMsgId_ne_mkErrMsgId t t⟩

/-- Counterexample for C1: two session creations within the same millisecond
tick mint equal ids — the second freshly generated id collides with the
session already in the store. -/
theorem c1_counterexample :
    (createSession 5 "ts2" "b" (createSession 5 "ts1" "a" []).2).1 ∈
      (createSession 5 "ts1" "a" []).2.map ChatSession.id := by decide

/-- C1 (amended): the freshly generated session id is distinct from the id
of every session already in the store, provided every existing session was
created at a different millisecond tick; two creations within the same tick
yield equal ids. -/
theorem c1_amended_fresh_id (t : Nat) (ts : List Nat) (createdAt text : String)
    (sessions : List ChatSession)
    (hids : sessions.map ChatSession.id = ts.map mkSessionId)
    (ht : t ∉ ts) :
    (createSession t createdAt text sessions).1 ∉ sessions.map ChatSession.id := by
  intro hmem
  rw [hids] at hmem
  obtain ⟨u, hu, he⟩ := List.mem_map.mp hmem
  exact ht (mkSessionId_inj he ▸ hu)

/-- Witness for the amended C1: a creation at tick 2 is fresh for a store
whose only session was created at tick 1. -/
theorem c1_amended_fresh_id_witness :
    (createSession 2 "c1" "x"
        [⟨mkSessionId 1, "T", [], "c0"⟩]).1 ∉
      ([⟨mkSessionId 1, "T", [], "c0"⟩] : List ChatSession).map ChatSession.id :=
  c1_amended_fresh_id 2 [1] "c1" "x" [⟨mkSessionId 1, "T", [], "c0"⟩] rfl
    (by decide)

/-- Counterexample for C2: two sends whose user-message mints fall in the
same millisecond tick (tick 7) produce two messages with the same id in one
session, violating pairwise distinctness. -/
theorem c2_counterexample :
    ¬ ((runOps [] [.appendUser 7 "hi" [], .appendPlaceholder 8, .foldFrag 8 "He",
        .appendUser 7 "again" []]).map ChatMessage.id).Nodup := by decide

/-- C2 (amended): after any sequence of the mutation operations, the message
ids in the session are pairwise distinct, provided no two mints of the same
kind (user, placeholder, error) happen in the same millisecond tick — the
property fails when two sends mint the same kind in one tick. -/
theorem c2_amended_ids_nodup (ops : List MOp) (h : (mints ops).Nodup) :
    ((runOps [] ops).map ChatMessage.id).Nodup := by
  rw [ids_runOps]
  simp only [List.map_nil, List.nil_append]
  exact h.map mintId_inj

/-- Witness for the amended C2: two sends minting at distinct ticks leave
all ids distinct. -/
theorem c2_amended_ids_nodup_witness :
    ((runOps [] [.appendUser 7 "hi" [], .appendPlaceholder 8, .foldFrag 8 "He",
        .appendUser 9 "again" [], .appendPlaceholder 10, .appendErr 11]).map
      ChatMessage.id).Nodup :=
  c2_amended_ids_nodup
    [.appendUser 7 "hi" [], .appendPlaceholder 8, .foldFrag 8 "He",
     .appendUser 9 "again" [], .appendPlaceholder 10, .appendErr 11] (by decide)

/-- Witness for C10 at tick 5: `msg-5`, `msg-5-model` and `err-5` are three
different strings. -/
theorem c10_send_ids_pairwise_distinct_witness :
    mkUserMsgId 5 ≠ mkModelMsgId 5 ∧ mkUserMsgId 5 ≠ mkErrMsgId 5 ∧
      mkModelMsgId 5 ≠ mkErrMsgId 5 :=
  c10_send_ids_pairwise_distinct 5
